import Mathlib

/-!
Verification development for a pair of playlist-automation scripts
(`run_playlist.py` and `add_to_playlist.py`).  The scripts are shallowly
embedded here: network collaborators (search, detail lookup, insertion)
are injected as explicit function arguments, randomness (query choice,
shuffling) is injected as explicit inputs, and the two main selection
loops become explicit state-passing recursions.
-/

set_option maxRecDepth 4000

/-! ## Configuration constants (from the two scripts) -/

def VIDEOS_PER_RUN : Nat := 10
def MIN_DURATION_MINUTES : Nat := 15
def MAX_SEARCH_RESULTS : Nat := 25
/-- `MAX_CANDIDATES_TO_CHECK` in `run_playlist.py` (per search query). -/
def MAX_CANDIDATES_TO_CHECK_run : Nat := 60
/-- `MAX_CANDIDATES_TO_CHECK` in `add_to_playlist.py`. -/
def MAX_CANDIDATES_TO_CHECK_add : Nat := 30
def MAX_TOTAL_ATTEMPTS : Nat := 40

/-! ## Duration parsing

Both scripts match durations against the regex
`PT(?:(\d+)H)?(?:(\d+)M)?(?:(\d+)S)?`.  `run_playlist.py` uses
`re.fullmatch`; `add_to_playlist.py` uses `re.match` with `^...$` anchors.
In Python, `$` (without MULTILINE) also matches just before a single
trailing newline, so the two anchorings differ on inputs ending in a
newline; this is modelled below by `pyDollarMatch`.

The regex is deterministic under maximal-munch: a digit run can never be
followed by another digit after backtracking, and the group letters
H/M/S are not digits, so the straightforward greedy parser below is
extensionally equal to the backtracking regex engine on every input. -/

/-- Numeric value of a digit string, as Python `int` computes it. -/
def digitsToNat (ds : List Char) : Nat :=
  ds.foldl (fun a c => a * 10 + (c.toNat - 48)) 0

/-- Split a character list into its maximal leading digit run and the rest,
modelling a greedy `\d*`. -/
def spanDigits : List Char → List Char × List Char
  | [] => ([], [])
  | c :: cs =>
    if c.isDigit then
      let r := spanDigits cs
      (c :: r.1, r.2)
    else ([], c :: cs)

/-- One optional group `(?:(\d+)X)?` of the duration regex: if a nonempty
digit run followed by the group letter is present, consume it and return
its value; otherwise consume nothing. -/
def optGroup (letter : Char) (cs : List Char) : Option Nat × List Char :=
  match spanDigits cs with
  | ([], _) => (none, cs)
  | (ds, r :: rs) => if r = letter then (some (digitsToNat ds), rs) else (none, cs)
  | (_, []) => (none, cs)

/-- Full-anchored match of `PT(?:(\d+)H)?(?:(\d+)M)?(?:(\d+)S)?` against a
character list, returning the three group values with absent groups
defaulted to 0 (the scripts apply `int(m.group(i) or 0)`).  This is the
semantics of `re.fullmatch` in `run_playlist.video_duration_minutes`. -/
def matchPTCore (cs : List Char) : Option (Nat × Nat × Nat) :=
  match cs with
  | 'P' :: 'T' :: rest =>
    let g1 := optGroup 'H' rest
    let g2 := optGroup 'M' g1.2
    let g3 := optGroup 'S' g2.2
    if g3.2 = [] then some (g1.1.getD 0, g2.1.getD 0, g3.1.getD 0) else none
  | _ => none

/-- Semantics of `re.match(r"^PT(?:(\d+)H)?(?:(\d+)M)?(?:(\d+)S)?$", s)` as
used by `add_to_playlist.iso8601_to_seconds`: Python's `$` matches at the
end of the string, or just before a newline at the end of the string, so
an encoding followed by one trailing newline also matches. -/
def pyDollarMatch (s : String) : Option (Nat × Nat × Nat) :=
  match matchPTCore s.data with
  | some r => some r
  | none =>
    match s.data.getLast? with
    | some c => if c = '\n' then matchPTCore s.data.dropLast else none
    | none => none

/-- `add_to_playlist.iso8601_to_seconds`: decode a duration encoding to
total seconds, returning 0 when the regex does not match. -/
def iso8601_to_seconds (duration : String) : Nat :=
  match pyDollarMatch duration with
  | none => 0
  | some (h, mm, s) => h * 3600 + mm * 60 + s

/-! ## Platform video data

A platform-level video record.  `run_playlist.video_duration_minutes`
fetches parts `contentDetails,status` (duration and privacy);
`add_to_playlist.get_video_details` fetches parts `contentDetails,snippet`
(duration, title, channel title) and therefore never sees the privacy
field. -/

structure PlatformVideo where
  videoId : String
  title : String
  channelTitle : String
  duration : String
  privacyStatus : String
deriving DecidableEq

/-- `run_playlist.video_duration_minutes`: the detail-lookup result is
injected as an `Option PlatformVideo` (`none` models an empty `items`
list).  Returns `none` for a missing item, a private item, or a duration
that does not fully match the regex; otherwise
`hours * 60 + mins + (1 if secs >= 30 else 0)`. -/
def video_duration_minutes (lookup : Option PlatformVideo) : Option Nat :=
  match lookup with
  | none => none
  | some v =>
    if v.privacyStatus = "private" then none
    else
      match matchPTCore v.duration.data with
      | none => none
      | some (hours, mins, secs) =>
        some (hours * 60 + mins + (if secs ≥ 30 then 1 else 0))

/-! ## Grammar of the duration encoding (declarative form)

The `PT#H#M#S` grammar, stated independently of the parser: a string is
in the grammar when it is `PT` followed by up to three components, each a
nonempty digit run tagged `H`, `M`, `S` in that order, any of which may
be absent. -/

/-- Render one optional component of the grammar. -/
def optComp : Option (List Char) → Char → List Char
  | none, _ => []
  | some ds, c => ds ++ [c]

/-- A well-formed optional component: absent, or a nonempty digit run. -/
def goodComp : Option (List Char) → Prop
  | none => True
  | some ds => ds ≠ [] ∧ ∀ c ∈ ds, c.isDigit

/-- Numeric value of an optional component (absent counts as 0). -/
def compVal : Option (List Char) → Nat
  | none => 0
  | some ds => digitsToNat ds

/-- The duration-grammar string built from three optional components. -/
def grammarString (oh om os : Option (List Char)) : List Char :=
  'P' :: 'T' :: (optComp oh 'H' ++ (optComp om 'M' ++ optComp os 'S'))

/-- Membership in the `PT#H#M#S` grammar. -/
def InGrammar (s : String) : Prop :=
  ∃ oh om os, goodComp oh ∧ goodComp om ∧ goodComp os ∧
    s.data = grammarString oh om os

/-- Modelled from the spec: the rounding policy for converting seconds to
whole minutes — "round a partial-minute remainder of ≥30 seconds up,
otherwise truncate". -/
def roundHalfMinutes (t : Nat) : Nat :=
  t / 60 + (if t % 60 ≥ 30 then 1 else 0)

/-! ## Title-quality regex patterns

The `BAD_TITLE_PATTERNS` lists are fixed case-insensitive regexes built
from literals, `\b` word boundaries, optional single characters (`s?`,
`-?`), `\s*`, and `\d+`.  They are modelled by a small token matcher with
the backtracking semantics of `re.search`.  `\w` (hence `\b`) is modelled
over alphanumerics and underscore, and case folding is ASCII, which
coincides with Python on the ASCII titles these patterns target. -/

inductive RTok where
  | lit (c : Char)
  | opt (c : Char)
  | wb
  | ws_star
  | digit
  | digit_star
deriving DecidableEq

/-- A word character for `\b` purposes. -/
def isWordChar (c : Char) : Bool := c.isAlphanum || c = '_'

/-- Whether a word boundary holds between a previous character (if any)
and the next character (if any). -/
def atBoundary (prev : Option Char) (next : Option Char) : Bool :=
  (match prev with | none => false | some c => isWordChar c)
    != (match next with | none => false | some c => isWordChar c)

/-- Case-insensitive single-character comparison. -/
def ciEq (a b : Char) : Bool := a.toLower = b.toLower

/-- Greedy-with-backtracking star over a character class `p`: try
consuming the longest run of `p`-characters first, then shorter ones,
handing over to the continuation `k` at each split. -/
def matchStar (p : Char → Bool) (k : Option Char → List Char → Bool) :
    Option Char → List Char → Bool
  | prev, [] => k prev []
  | prev, x :: xs =>
    if p x then matchStar p k (some x) xs || k prev (x :: xs)
    else k prev (x :: xs)

/-- Match a token list at the current position (`xs`), with `prev` the
character just before the position, with greedy backtracking for the
optional and starred tokens. -/
def matchToks (ts : List RTok) (prev : Option Char) (xs : List Char) : Bool :=
  match ts with
  | [] => true
  | RTok.lit c :: ts' =>
    (match xs with
     | x :: xs' => if ciEq x c then matchToks ts' (some x) xs' else false
     | [] => false)
  | RTok.opt c :: ts' =>
    (match xs with
     | x :: xs' =>
       if ciEq x c then matchToks ts' (some x) xs' || matchToks ts' prev (x :: xs')
       else matchToks ts' prev (x :: xs')
     | [] => matchToks ts' prev [])
  | RTok.wb :: ts' => atBoundary prev xs.head? && matchToks ts' prev xs
  | RTok.ws_star :: ts' =>
    matchStar (fun c => c.isWhitespace) (fun p' x' => matchToks ts' p' x') prev xs
  | RTok.digit :: ts' =>
    (match xs with
     | x :: xs' => if x.isDigit then matchToks ts' (some x) xs' else false
     | [] => false)
  | RTok.digit_star :: ts' =>
    matchStar (fun c => c.isDigit) (fun p' x' => matchToks ts' p' x') prev xs

/-- `re.search`: try the token pattern at every position of the text. -/
def searchFrom (ts : List RTok) (prev : Option Char) (xs : List Char) : Bool :=
  matchToks ts prev xs ||
    match xs with
    | [] => false
    | x :: xs' => searchFrom ts (some x) xs'

/-- `re.search(pattern, s, re.IGNORECASE)` over a whole string. -/
def reSearch (ts : List RTok) (s : String) : Bool :=
  searchFrom ts none s.data

/-- Turn an ASCII literal string into literal tokens. -/
def litToks (s : String) : List RTok := s.data.map RTok.lit

def pat_shorts : List RTok := [RTok.wb] ++ litToks "short" ++ [RTok.opt 's', RTok.wb]
def pat_hash_shorts : List RTok := litToks "#short" ++ [RTok.opt 's', RTok.wb]
def pat_tiktok : List RTok := [RTok.wb] ++ litToks "tiktok" ++ [RTok.wb]
def pat_reels : List RTok := [RTok.wb] ++ litToks "reel" ++ [RTok.opt 's', RTok.wb]
def pat_edited : List RTok := [RTok.wb] ++ litToks "edited" ++ [RTok.wb]
def pat_speed_up : List RTok :=
  [RTok.wb] ++ litToks "speed" ++ [RTok.ws_star] ++ litToks "up" ++ [RTok.wb]
def pat_slowed : List RTok := [RTok.wb] ++ litToks "slowed" ++ [RTok.wb]
def pat_meme : List RTok := [RTok.wb] ++ litToks "meme" ++ [RTok.wb]
def pat_clip : List RTok := [RTok.wb] ++ litToks "clip" ++ [RTok.wb]
def pat_status : List RTok := [RTok.wb] ++ litToks "status" ++ [RTok.wb]
def pat_1_11 : List RTok :=
  [RTok.wb, RTok.lit '1', RTok.opt '-', RTok.lit '1', RTok.lit '1', RTok.wb]
def pat_part_n : List RTok :=
  [RTok.wb] ++ litToks "part" ++ [RTok.ws_star, RTok.digit, RTok.digit_star, RTok.wb]

/-- `BAD_TITLE_PATTERNS` of `run_playlist.py` (11 patterns). -/
def BAD_TITLE_PATTERNS_run : List (List RTok) :=
  [pat_shorts, pat_hash_shorts, pat_tiktok, pat_reels, pat_edited,
   pat_speed_up, pat_slowed, pat_meme, pat_clip, pat_status, pat_1_11]

/-- `BAD_TITLE_PATTERNS` of `add_to_playlist.py` (the same 11 plus
`\bpart\s*\d+\b`). -/
def BAD_TITLE_PATTERNS_add : List (List RTok) :=
  BAD_TITLE_PATTERNS_run ++ [pat_part_n]

/-- `run_playlist.is_bad_title`. -/
def is_bad_title (title : String) : Bool :=
  BAD_TITLE_PATTERNS_run.any (fun p => reSearch p title)

/-- `add_to_playlist.title_is_bad` (the source lowercases the title first,
which is a no-op under the case-insensitive search). -/
def title_is_bad (title : String) : Bool :=
  BAD_TITLE_PATTERNS_add.any (fun p => reSearch p title)

/-! ## Creator preference matching (`add_to_playlist.py` only) -/

/-- Lowercase a string (ASCII case folding, as in the source's inputs). -/
def strLower (s : String) : String := ⟨s.data.map Char.toLower⟩

/-- List-level prefix test. -/
def isPrefixL : List Char → List Char → Bool
  | [], _ => true
  | _ :: _, [] => false
  | a :: as, b :: bs => a = b && isPrefixL as bs

/-- Python's `needle in hay` substring test. -/
def containsSub (needle hay : List Char) : Bool :=
  isPrefixL needle hay ||
    match hay with
    | [] => false
    | _ :: hs => containsSub needle hs

/-- Substring test on strings: `strContains hay needle` is Python's
`needle in hay`. -/
def strContains (hay needle : String) : Bool := containsSub needle.data hay.data

/-- `RECITERS` of `add_to_playlist.py`. -/
def RECITERS : List String :=
  ["Abdul Rahman Al-Sudais", "Abdurrahman Al Sudais", "Saud Al-Shuraim",
   "Saud Al Shuraim", "Maher Al Muaiqly", "Maher Al-Muaiqly",
   "Yasser Al-Dosari", "Yasser Al Dosari", "Abdullah Al-Juhany",
   "Abdullah Al Juhany", "Saleh Al Talib", "Saleh Al-Talib",
   "Bandar Balilah", "Abdullah Basfar", "Nasser Al Qatami",
   "Mishary Rashid Alafasy", "Mishary Alafasy", "Saad Al Ghamdi",
   "Saad Al-Ghamdi", "Abu Bakr Al-Shatri", "Abu Bakr Al Shatri",
   "Hani Ar-Rifai", "Hani Al Rifai", "Muhammad Ayyub", "Mohammed Ayyub",
   "Ali Jaber", "Sheikh Ali Jaber", "Idris Abkar", "Minshawi",
   "Al-Minshawi", "Mahmoud Khalil Al-Husary", "Al-Husary", "Abdul Basit",
   "AbdulBasit", "Abdul Basit Abdus Samad"]

/-- The `partials` list inside `add_to_playlist.reciter_matches`. -/
def partials : List String :=
  ["sudais", "shuraim", "muaiqly", "dosari", "juhany", "talib",
   "alafasy", "afasy", "ghamdi", "shatri", "rifai", "ayyub",
   "ali jaber", "idris abkar", "minshawi", "husary", "abdul basit",
   "qatami", "basfar", "balilah"]

/-- `add_to_playlist.reciter_matches`: full-name or partial substring
match against the lowercased `title + " " + channel_title`. -/
def reciter_matches (title : String) (channel_title : String) : Bool :=
  let hay := strLower (title ++ " " ++ channel_title)
  RECITERS.any (fun r => strContains hay (strLower r)) ||
    partials.any (fun p => strContains hay p)

/-- `add_to_playlist.is_good_video`: note that its input comes from
`get_video_details`, which requests only the `contentDetails,snippet`
parts, so the privacy field is never consulted. -/
def is_good_video (video : PlatformVideo) : Bool :=
  if video.title = "" then false
  else if title_is_bad video.title then false
  else if !reciter_matches video.title video.channelTitle then false
  else if iso8601_to_seconds video.duration < MIN_DURATION_MINUTES * 60 then false
  else true

/-! ## Selection loops

Collaborators are injected: `detail`/`lookup` stands for the detail-lookup
capability (`none` models an empty `items` response), `ins` for the
insertion capability, and the candidate lists stand for the post-shuffle
search results (randomness injected). -/

/-- Result of one insertion call: success, or an `HttpError` whose
message is inspected by substring tests. -/
inductive ApiResult where
  | success
  | httpError (msg : String)
deriving DecidableEq

/-- The message test `"videoNotFound" in msg or "Video not found" in msg`
from `run_playlist.main`. -/
def isVideoNotFoundMsg (msg : String) : Bool :=
  strContains msg "videoNotFound" || strContains msg "Video not found"

/-- The message test `"quotaExceeded" in msg or "Quota exceeded" in msg`
from `run_playlist.main`. -/
def isQuotaMsg (msg : String) : Bool :=
  strContains msg "quotaExceeded" || strContains msg "Quota exceeded"

/-- The candidate scan inside `run_playlist.pick_one_new_video`:
`checked` is the number of candidates already counted; the loop breaks
once `checked >= MAX_CANDIDATES_TO_CHECK`, counts every remaining
candidate, skips duplicates, bad titles, and items whose
duration/privacy check fails or falls below the 15-minute floor, and
returns the first survivor with its minutes and the query used. -/
def pickGo (existing picked : List String) (detail : String → Option PlatformVideo)
    (query : String) : Nat → List (String × String) → Option (String × String × Nat × String)
  | _, [] => none
  | checked, (vid, title) :: rest =>
    if checked ≥ MAX_CANDIDATES_TO_CHECK_run then none
    else if vid ∈ existing ∨ vid ∈ picked then
      pickGo existing picked detail query (checked + 1) rest
    else if is_bad_title title then
      pickGo existing picked detail query (checked + 1) rest
    else
      match video_duration_minutes (detail vid) with
      | none => pickGo existing picked detail query (checked + 1) rest
      | some mins =>
        if mins < MIN_DURATION_MINUTES then
          pickGo existing picked detail query (checked + 1) rest
        else some (vid, title, mins, query)

/-- `run_playlist.pick_one_new_video`: the random reciter/topic choice and
the shuffle are injected as the `query` string and the pre-shuffled
`candidates` list. -/
def pick_one_new_video (existing picked : List String)
    (candidates : List (String × String)) (detail : String → Option PlatformVideo)
    (query : String) : Option (String × String × Nat × String) :=
  pickGo existing picked detail query 0 candidates

/-- State of the `run_playlist.main` selection loop.  `insLog` records, in
order, every identifier passed to the insertion capability. -/
structure RunState where
  existing : List String
  picked : List String
  added : Nat
  attempts : Nat
  insLog : List String
deriving DecidableEq

/-- Outcome of the `run_playlist.main` selection loop: normal completion,
or an unrecognized insertion failure propagating as fatal. -/
inductive RunOutcome where
  | done (st : RunState)
  | fatal (msg : String) (st : RunState)
deriving DecidableEq

/-- The state carried by a `RunOutcome`. -/
def RunOutcome.state : RunOutcome → RunState
  | RunOutcome.done st => st
  | RunOutcome.fatal _ st => st

/-- The `while added < VIDEOS_PER_RUN and attempts < MAX_TOTAL_ATTEMPTS`
loop of `run_playlist.main`.  Each attempt draws a fresh random query and
search (injected as `qEnv`/`cEnv`, indexed by the attempt counter before
its increment), inserts any pick, and handles insertion failures:
not-found messages skip the item (remembering it in `picked`), quota
messages break out of the loop, anything else re-raises. -/
def runLoop (qEnv : Nat → String) (cEnv : Nat → List (String × String))
    (detail : String → Option PlatformVideo) (ins : String → ApiResult)
    (st : RunState) : RunOutcome :=
  if _hrun : st.added < VIDEOS_PER_RUN ∧ st.attempts < MAX_TOTAL_ATTEMPTS then
    match pick_one_new_video st.existing st.picked (cEnv st.attempts) detail
        (qEnv st.attempts) with
    | none =>
      runLoop qEnv cEnv detail ins { st with attempts := st.attempts + 1 }
    | some (vid, _title, _mins, _q) =>
      let st1 : RunState :=
        { st with attempts := st.attempts + 1, insLog := st.insLog ++ [vid] }
      match ins vid with
      | ApiResult.success =>
        runLoop qEnv cEnv detail ins
          { st1 with added := st1.added + 1, picked := vid :: st1.picked,
                     existing := vid :: st1.existing }
      | ApiResult.httpError msg =>
        if isVideoNotFoundMsg msg then
          runLoop qEnv cEnv detail ins { st1 with picked := vid :: st1.picked }
        else if isQuotaMsg msg then RunOutcome.done st1
        else RunOutcome.fatal msg st1
  else RunOutcome.done st
termination_by MAX_TOTAL_ATTEMPTS - st.attempts
decreasing_by
  all_goals
    obtain ⟨-, h2⟩ := _hrun
    simp only [MAX_TOTAL_ATTEMPTS] at h2 ⊢
    omega

/-- Outcome of the `add_to_playlist.main` candidate scan. -/
inductive ATOutcome where
  | added (vid : String)
  | noneFound
  | fatal (msg : String)
deriving DecidableEq

/-- The candidate scan of `add_to_playlist.main`, started with
`checked = 0` and an empty insertion log.  Candidates already in
`existing_ids` are skipped without counting; `checked` is incremented
before the `> MAX_CANDIDATES_TO_CHECK` break test; a missing detail is
skipped silently; the first candidate passing `is_good_video` is
inserted and the scan returns.  Any `HttpError` from the insertion
propagates out of `main` (the `__main__` guard prints and re-raises), so
it surfaces here as a `fatal` outcome.  The in-memory membership set is
threaded through unchanged (the source never updates it) and returned
with the outcome and the insertion log. -/
def addLoop (existing : List String) (lookup : String → Option PlatformVideo)
    (ins : String → ApiResult) :
    List String → Nat → List String → ATOutcome × List String × List String
  | [], _, log => (ATOutcome.noneFound, existing, log)
  | vid :: rest, checked, log =>
    if vid ∈ existing then addLoop existing lookup ins rest checked log
    else if checked + 1 > MAX_CANDIDATES_TO_CHECK_add then
      (ATOutcome.noneFound, existing, log)
    else
      match lookup vid with
      | none => addLoop existing lookup ins rest (checked + 1) log
      | some video =>
        if is_good_video video then
          match ins vid with
          | ApiResult.success => (ATOutcome.added vid, existing, log ++ [vid])
          | ApiResult.httpError msg => (ATOutcome.fatal msg, existing, log ++ [vid])
        else addLoop existing lookup ins rest (checked + 1) log

/-- In-loop invariant of the `run_playlist.main` loop: the pre-run
membership set `E0` stays inside the in-memory membership set, and every
identifier already passed to the insertion capability is recorded in
`picked` and was never a pre-run member. -/
def RunInv (E0 : List String) (st : RunState) : Prop :=
  (∀ v ∈ E0, v ∈ st.existing) ∧ st.insLog.Nodup ∧
    ∀ v ∈ st.insLog, v ∉ E0 ∧ v ∈ st.picked

/-- Discipline of a completed insertion log: no identifier was inserted
twice, and no pre-run member was ever passed to the insertion
capability. -/
def LogOk (E0 : List String) (l : List String) : Prop :=
  l.Nodup ∧ ∀ v ∈ l, v ∉ E0

/-! ### Step lemmas for the `run_playlist.main` loop -/

theorem runLoop_stop (qEnv : Nat → String) (cEnv : Nat → List (String × String))
    (detail : String → Option PlatformVideo) (ins : String → ApiResult) (st : RunState)
    (h : ¬(st.added < VIDEOS_PER_RUN ∧ st.attempts < MAX_TOTAL_ATTEMPTS)) :
    runLoop qEnv cEnv detail ins st = RunOutcome.done st := by
  rw [runLoop]
  simp [h]

theorem runLoop_pick_none (qEnv : Nat → String) (cEnv : Nat → List (String × String))
    (detail : String → Option PlatformVideo) (ins : String → ApiResult) (st : RunState)
    (h1 : st.added < VIDEOS_PER_RUN) (h2 : st.attempts < MAX_TOTAL_ATTEMPTS)
    (hp : pick_one_new_video st.existing st.picked (cEnv st.attempts) detail
      (qEnv st.attempts) = none) :
    runLoop qEnv cEnv detail ins st =
      runLoop qEnv cEnv detail ins { st with attempts := st.attempts + 1 } := by
  rw [runLoop]
  simp [h1, h2, hp]

theorem runLoop_success (qEnv : Nat → String) (cEnv : Nat → List (String × String))
    (detail : String → Option PlatformVideo) (ins : String → ApiResult) (st : RunState)
    (vid title : String) (mins : Nat) (q : String)
    (h1 : st.added < VIDEOS_PER_RUN) (h2 : st.attempts < MAX_TOTAL_ATTEMPTS)
    (hp : pick_one_new_video st.existing st.picked (cEnv st.attempts) detail
      (qEnv st.attempts) = some (vid, title, mins, q))
    (hi : ins vid = ApiResult.success) :
    runLoop qEnv cEnv detail ins st =
      runLoop qEnv cEnv detail ins
        ⟨vid :: st.existing, vid :: st.picked, st.added + 1, st.attempts + 1,
         st.insLog ++ [vid]⟩ := by
  rw [runLoop]
  simp [h1, h2, hp, hi]

theorem runLoop_notfound (qEnv : Nat → String) (cEnv : Nat → List (String × String))
    (detail : String → Option PlatformVideo) (ins : String → ApiResult) (st : RunState)
    (vid title : String) (mins : Nat) (q msg : String)
    (h1 : st.added < VIDEOS_PER_RUN) (h2 : st.attempts < MAX_TOTAL_ATTEMPTS)
    (hp : pick_one_new_video st.existing st.picked (cEnv st.attempts) detail
      (qEnv st.attempts) = some (vid, title, mins, q))
    (hi : ins vid = ApiResult.httpError msg)
    (hm : isVideoNotFoundMsg msg = true) :
    runLoop qEnv cEnv detail ins st =
      runLoop qEnv cEnv detail ins
        ⟨st.existing, vid :: st.picked, st.added, st.attempts + 1,
         st.insLog ++ [vid]⟩ := by
  rw [runLoop]
  simp [h1, h2, hp, hi, hm]

theorem runLoop_quota (qEnv : Nat → String) (cEnv : Nat → List (String × String))
    (detail : String → Option PlatformVideo) (ins : String → ApiResult) (st : RunState)
    (vid title : String) (mins : Nat) (q msg : String)
    (h1 : st.added < VIDEOS_PER_RUN) (h2 : st.attempts < MAX_TOTAL_ATTEMPTS)
    (hp : pick_one_new_video st.existing st.picked (cEnv st.attempts) detail
      (qEnv st.attempts) = some (vid, title, mins, q))
    (hi : ins vid = ApiResult.httpError msg)
    (hm : isVideoNotFoundMsg msg = false) (hq : isQuotaMsg msg = true) :
    runLoop qEnv cEnv detail ins st =
      RunOutcome.done
        ⟨st.existing, st.picked, st.added, st.attempts + 1, st.insLog ++ [vid]⟩ := by
  rw [runLoop]
  simp [h1, h2, hp, hi, hm, hq]

theorem runLoop_fatal (qEnv : Nat → String) (cEnv : Nat → List (String × String))
    (detail : String → Option PlatformVideo) (ins : String → ApiResult) (st : RunState)
    (vid title : String) (mins : Nat) (q msg : String)
    (h1 : st.added < VIDEOS_PER_RUN) (h2 : st.attempts < MAX_TOTAL_ATTEMPTS)
    (hp : pick_one_new_video st.existing st.picked (cEnv st.attempts) detail
      (qEnv st.attempts) = some (vid, title, mins, q))
    (hi : ins vid = ApiResult.httpError msg)
    (hm : isVideoNotFoundMsg msg = false) (hq : isQuotaMsg msg = false) :
    runLoop qEnv cEnv detail ins st =
      RunOutcome.fatal msg
        ⟨st.existing, st.picked, st.added, st.attempts + 1, st.insLog ++ [vid]⟩ := by
  rw [runLoop]
  simp [h1, h2, hp, hi, hm, hq]

/-! ### Soundness of the duration parser on the declarative grammar -/

theorem spanDigits_append (ds rest : List Char) (hds : ∀ c ∈ ds, c.isDigit)
    (hrest : ∀ c, rest.head? = some c → c.isDigit = false) :
    spanDigits (ds ++ rest) = (ds, rest) := by
  induction ds with
  | nil =>
    cases rest with
    | nil => rfl
    | cons c cs =>
      have := hrest c rfl
      simp [spanDigits, this]
  | cons d ds ih =>
    have hd : d.isDigit := hds d (by simp)
    have ih' := ih (fun c hc => hds c (by simp [hc]))
    simp [spanDigits, hd, ih']

theorem optGroup_hit (L : Char) (hL : L.isDigit = false) (ds rest : List Char)
    (hne : ds ≠ []) (hds : ∀ c ∈ ds, c.isDigit) :
    optGroup L (ds ++ L :: rest) = (some (digitsToNat ds), rest) := by
  have hspan : spanDigits (ds ++ L :: rest) = (ds, L :: rest) :=
    spanDigits_append ds (L :: rest) hds (by intro c hc; simp at hc; simpa [hc] using hL)
  unfold optGroup
  rw [hspan]
  cases ds with
  | nil => exact absurd rfl hne
  | cons d ds' => simp

theorem optGroup_skip_of_span (L : Char) (cs ds0 : List Char) (r : Char) (rs : List Char)
    (hspan : spanDigits cs = (ds0, r :: rs)) (hr : r ≠ L) :
    optGroup L cs = (none, cs) := by
  unfold optGroup
  rw [hspan]
  cases ds0 with
  | nil => simp
  | cons d ds' => simp [hr]

theorem optGroup_nil (L : Char) : optGroup L [] = (none, []) := rfl

theorem stageS (os : Option (List Char)) (h : goodComp os) :
    optGroup 'S' (optComp os 'S') = (os.map digitsToNat, []) := by
  cases os with
  | none => rfl
  | some ds =>
    obtain ⟨hne, hds⟩ := h
    show optGroup 'S' (ds ++ ['S']) = (some (digitsToNat ds), [])
    exact optGroup_hit 'S' (by decide) ds [] hne hds

theorem stageM (om os : Option (List Char)) (hm : goodComp om) (hs : goodComp os) :
    optGroup 'M' (optComp om 'M' ++ optComp os 'S') =
      (om.map digitsToNat, optComp os 'S') := by
  cases om with
  | some ds =>
    obtain ⟨hne, hds⟩ := hm
    have e : optComp (some ds) 'M' ++ optComp os 'S' = ds ++ 'M' :: optComp os 'S' := by
      show (ds ++ ['M']) ++ optComp os 'S' = ds ++ 'M' :: optComp os 'S'
      rw [List.append_assoc]
      rfl
    rw [e]
    exact optGroup_hit 'M' (by decide) ds (optComp os 'S') hne hds
  | none =>
    show optGroup 'M' (optComp os 'S') = (none, optComp os 'S')
    cases os with
    | none => rfl
    | some ds =>
      obtain ⟨hne, hds⟩ := hs
      show optGroup 'M' (ds ++ ['S']) = (none, ds ++ ['S'])
      refine optGroup_skip_of_span 'M' _ ds 'S' [] ?_ (by decide)
      exact spanDigits_append ds ['S'] hds (by intro c hc; injection hc with hcv; subst hcv; decide)

theorem stageH (oh om os : Option (List Char)) (hh : goodComp oh)
    (hm : goodComp om) (hs : goodComp os) :
    optGroup 'H' (optComp oh 'H' ++ (optComp om 'M' ++ optComp os 'S')) =
      (oh.map digitsToNat, optComp om 'M' ++ optComp os 'S') := by
  cases oh with
  | some ds =>
    obtain ⟨hne, hds⟩ := hh
    have e : optComp (some ds) 'H' ++ (optComp om 'M' ++ optComp os 'S')
        = ds ++ 'H' :: (optComp om 'M' ++ optComp os 'S') := by
      show (ds ++ ['H']) ++ (optComp om 'M' ++ optComp os 'S')
          = ds ++ 'H' :: (optComp om 'M' ++ optComp os 'S')
      rw [List.append_assoc]
      rfl
    rw [e]
    exact optGroup_hit 'H' (by decide) ds (optComp om 'M' ++ optComp os 'S') hne hds
  | none =>
    show optGroup 'H' (optComp om 'M' ++ optComp os 'S')
        = (none, optComp om 'M' ++ optComp os 'S')
    cases om with
    | some dm =>
      obtain ⟨hne, hds⟩ := hm
      have e : optComp (some dm) 'M' ++ optComp os 'S' = dm ++ 'M' :: optComp os 'S' := by
        show (dm ++ ['M']) ++ optComp os 'S' = dm ++ 'M' :: optComp os 'S'
        rw [List.append_assoc]
        rfl
      rw [e]
      refine optGroup_skip_of_span 'H' _ dm 'M' (optComp os 'S') ?_ (by decide)
      exact spanDigits_append dm _ hds (by intro c hc; injection hc with hcv; subst hcv; decide)
    | none =>
      show optGroup 'H' (optComp os 'S') = (none, optComp os 'S')
      cases os with
      | none => rfl
      | some ds =>
        obtain ⟨hne, hds⟩ := hs
        show optGroup 'H' (ds ++ ['S']) = (none, ds ++ ['S'])
        refine optGroup_skip_of_span 'H' _ ds 'S' [] ?_ (by decide)
        exact spanDigits_append ds ['S'] hds (by intro c hc; injection hc with hcv; subst hcv; decide)

theorem matchPTCore_grammar (oh om os : Option (List Char))
    (h1 : goodComp oh) (h2 : goodComp om) (h3 : goodComp os) :
    matchPTCore (grammarString oh om os) = some (compVal oh, compVal om, compVal os) := by
  have e : matchPTCore (grammarString oh om os)
      = (let g1 := optGroup 'H' (optComp oh 'H' ++ (optComp om 'M' ++ optComp os 'S'))
         let g2 := optGroup 'M' g1.2
         let g3 := optGroup 'S' g2.2
         if g3.2 = [] then some (g1.1.getD 0, g2.1.getD 0, g3.1.getD 0) else none) := rfl
  rw [e]
  simp only [stageH oh om os h1 h2 h3, stageM om os h2 h3, stageS os h3]
  cases oh <;> cases os <;> cases om <;> simp [compVal]

theorem pyDollarMatch_of_core (s : String) (r : Nat × Nat × Nat)
    (h : matchPTCore s.data = some r) : pyDollarMatch s = some r := by
  unfold pyDollarMatch
  rw [h]

theorem iso8601_of_core (s : String) (h m sec : Nat)
    (hc : matchPTCore s.data = some (h, m, sec)) :
    iso8601_to_seconds s = h * 3600 + m * 60 + sec := by
  unfold iso8601_to_seconds
  rw [pyDollarMatch_of_core s _ hc]

theorem iso8601_zero_of_nomatch (s : String) (h : pyDollarMatch s = none) :
    iso8601_to_seconds s = 0 := by
  unfold iso8601_to_seconds
  rw [h]

theorem iso8601_grammar (oh om os : Option (List Char))
    (h1 : goodComp oh) (h2 : goodComp om) (h3 : goodComp os) :
    iso8601_to_seconds ⟨grammarString oh om os⟩ =
      compVal oh * 3600 + compVal om * 60 + compVal os :=
  iso8601_of_core _ _ _ _ (matchPTCore_grammar oh om os h1 h2 h3)

theorem matchPTCore_some_of_inGrammar (s : String) (h : InGrammar s) :
    ∃ r, matchPTCore s.data = some r := by
  obtain ⟨oh, om, os, h1, h2, h3, hdata⟩ := h
  exact ⟨_, by rw [hdata]; exact matchPTCore_grammar oh om os h1 h2 h3⟩

/-! ### Properties of the candidate scans -/

/-- Every item returned by `pick_one_new_video`'s scan passed exactly the
filters the scan applies: not a duplicate, not a bad title, and a
successful duration/privacy check of at least the minimum minutes. -/
theorem pickGo_some_spec (existing picked : List String)
    (detail : String → Option PlatformVideo) (query : String) :
    ∀ (cs : List (String × String)) (checked : Nat) (vid title : String)
      (mins : Nat) (q : String),
      pickGo existing picked detail query checked cs = some (vid, title, mins, q) →
      vid ∉ existing ∧ vid ∉ picked ∧ is_bad_title title = false ∧
        video_duration_minutes (detail vid) = some mins ∧
        MIN_DURATION_MINUTES ≤ mins ∧ q = query := by
  intro cs
  induction cs with
  | nil => intro checked vid title mins q h; simp [pickGo] at h
  | cons p rest ih =>
    obtain ⟨v, t⟩ := p
    intro checked vid title mins q h
    by_cases h1 : checked ≥ MAX_CANDIDATES_TO_CHECK_run
    · simp [pickGo, h1] at h
    by_cases h2 : v ∈ existing ∨ v ∈ picked
    · rw [pickGo, if_neg h1, if_pos h2] at h
      exact ih _ _ _ _ _ h
    by_cases h3 : is_bad_title t
    · rw [pickGo, if_neg h1, if_neg h2, if_pos h3] at h
      exact ih _ _ _ _ _ h
    rw [pickGo, if_neg h1, if_neg h2, if_neg h3] at h
    split at h
    · exact ih _ _ _ _ _ h
    · rename_i m hv
      split at h
      · exact ih _ _ _ _ _ h
      · rename_i h4
        simp only [Option.some.injEq, Prod.mk.injEq] at h
        obtain ⟨hvv, htt, hmm, hqq⟩ := h
        subst hvv; subst htt; subst hmm; subst hqq
        push_neg at h2
        exact ⟨h2.1, h2.2, by simpa using h3, hv, Nat.le_of_not_lt h4, rfl⟩

/-- Skipping step of the candidate scan: a counted candidate whose
duration/privacy check returns the `none` sentinel is passed over
silently. -/
theorem pickGo_skip_duration_none (existing picked : List String)
    (detail : String → Option PlatformVideo) (query : String)
    (checked : Nat) (vid title : String) (rest : List (String × String))
    (hc : checked < MAX_CANDIDATES_TO_CHECK_run)
    (hmem : ¬(vid ∈ existing ∨ vid ∈ picked))
    (hbad : is_bad_title title = false)
    (hdur : video_duration_minutes (detail vid) = none) :
    pickGo existing picked detail query checked ((vid, title) :: rest) =
      pickGo existing picked detail query (checked + 1) rest := by
  rw [pickGo, if_neg (Nat.not_le.mpr hc), if_neg hmem, if_neg (by simp [hbad]), hdur]

/-- The `add_to_playlist.main` scan never touches the in-memory membership
set, inserts at most one identifier, and never hands a pre-run member to
the insertion capability. -/
theorem addLoop_spec (existing : List String) (lookup : String → Option PlatformVideo)
    (ins : String → ApiResult) :
    ∀ (cs : List String) (checked : Nat) (log : List String),
      (addLoop existing lookup ins cs checked log).2.1 = existing ∧
      ∃ tail, (addLoop existing lookup ins cs checked log).2.2 = log ++ tail ∧
        tail.length ≤ 1 ∧ ∀ v ∈ tail, v ∉ existing := by
  intro cs
  induction cs with
  | nil =>
    intro checked log
    exact ⟨rfl, [], by simp [addLoop], by simp, by simp⟩
  | cons vid rest ih =>
    intro checked log
    by_cases h1 : vid ∈ existing
    · rw [addLoop, if_pos h1]
      exact ih checked log
    by_cases h2 : checked + 1 > MAX_CANDIDATES_TO_CHECK_add
    · rw [addLoop, if_neg h1, if_pos h2]
      exact ⟨rfl, [], by simp, by simp, by simp⟩
    rw [addLoop, if_neg h1, if_neg h2]
    split
    · exact ih (checked + 1) log
    · split
      · split
        · exact ⟨rfl, [vid], rfl, by simp, by simpa using h1⟩
        · exact ⟨rfl, [vid], rfl, by simp, by simpa using h1⟩
      · exact ih (checked + 1) log

/-- Acceptance step of the `add_to_playlist.main` scan with a succeeding
insertion: the scan stops at once, leaving the membership set untouched. -/
theorem addLoop_accept (existing : List String) (lookup : String → Option PlatformVideo)
    (ins : String → ApiResult) (vid : String) (rest : List String)
    (checked : Nat) (log : List String) (video : PlatformVideo)
    (hmem : vid ∉ existing) (hch : ¬(checked + 1 > MAX_CANDIDATES_TO_CHECK_add))
    (hl : lookup vid = some video) (hg : is_good_video video = true)
    (hi : ins vid = ApiResult.success) :
    addLoop existing lookup ins (vid :: rest) checked log =
      (ATOutcome.added vid, existing, log ++ [vid]) := by
  rw [addLoop, if_neg hmem, if_neg hch, hl]
  simp [hg, hi]

/-- Insertion-failure step of the `add_to_playlist.main` scan: any
`HttpError` from the insertion aborts the whole run as fatal, regardless
of the message kind and of any candidates still unexamined. -/
theorem addLoop_insert_error (existing : List String) (lookup : String → Option PlatformVideo)
    (ins : String → ApiResult) (vid : String) (rest : List String)
    (checked : Nat) (log : List String) (video : PlatformVideo) (msg : String)
    (hmem : vid ∉ existing) (hch : ¬(checked + 1 > MAX_CANDIDATES_TO_CHECK_add))
    (hl : lookup vid = some video) (hg : is_good_video video = true)
    (hi : ins vid = ApiResult.httpError msg) :
    addLoop existing lookup ins (vid :: rest) checked log =
      (ATOutcome.fatal msg, existing, log ++ [vid]) := by
  rw [addLoop, if_neg hmem, if_neg hch, hl]
  simp [hg, hi]

/-! ### Invariants of the `run_playlist.main` loop -/

theorem runLoop_inv_aux (qEnv : Nat → String) (cEnv : Nat → List (String × String))
    (detail : String → Option PlatformVideo) (ins : String → ApiResult)
    (E0 : List String) :
    ∀ (n : Nat) (st : RunState), MAX_TOTAL_ATTEMPTS - st.attempts ≤ n →
      RunInv E0 st →
      LogOk E0 (runLoop qEnv cEnv detail ins st).state.insLog := by
  intro n
  induction n with
  | zero =>
    intro st hn hinv
    have hstop : ¬(st.added < VIDEOS_PER_RUN ∧ st.attempts < MAX_TOTAL_ATTEMPTS) := by
      intro hc
      simp only [MAX_TOTAL_ATTEMPTS] at hc hn
      omega
    rw [runLoop_stop _ _ _ _ _ hstop]
    exact ⟨hinv.2.1, fun v hv => (hinv.2.2 v hv).1⟩
  | succ n ih =>
    intro st hn hinv
    by_cases hguard : st.added < VIDEOS_PER_RUN ∧ st.attempts < MAX_TOTAL_ATTEMPTS
    · obtain ⟨hA, hT⟩ := hguard
      have hmeas : MAX_TOTAL_ATTEMPTS - (st.attempts + 1) ≤ n := by
        simp only [MAX_TOTAL_ATTEMPTS] at hT hn ⊢
        omega
      cases hp : pick_one_new_video st.existing st.picked (cEnv st.attempts) detail
          (qEnv st.attempts) with
      | none =>
        rw [runLoop_pick_none _ _ _ _ _ hA hT hp]
        exact ih _ hmeas hinv
      | some pk =>
        obtain ⟨vid, title, mins, q⟩ := pk
        obtain ⟨hvE, hvP, -, -, -, -⟩ :=
          pickGo_some_spec st.existing st.picked detail (qEnv st.attempts)
            (cEnv st.attempts) 0 vid title mins q hp
        have hvE0 : vid ∉ E0 := fun hc => hvE (hinv.1 vid hc)
        have hvLog : vid ∉ st.insLog := fun hc => hvP ((hinv.2.2 vid hc).2)
        have hlogNodup : (st.insLog ++ [vid]).Nodup := by
          simp [List.nodup_append, hinv.2.1, hvLog]
        have hlogE0 : ∀ v ∈ st.insLog ++ [vid], v ∉ E0 := by
          intro v hv
          rcases List.mem_append.mp hv with h | h
          · exact (hinv.2.2 v h).1
          · simp at h; subst h; exact hvE0
        cases hi : ins vid with
        | success =>
          rw [runLoop_success _ _ _ _ _ _ _ _ _ hA hT hp hi]
          refine ih _ hmeas ⟨fun v hv => List.mem_cons_of_mem _ (hinv.1 v hv), hlogNodup, ?_⟩
          intro v hv
          exact ⟨hlogE0 v hv, by
            rcases List.mem_append.mp hv with h | h
            · exact List.mem_cons_of_mem _ ((hinv.2.2 v h).2)
            · simp at h; subst h; exact List.mem_cons_self _ _⟩
        | httpError msg =>
          by_cases hm : isVideoNotFoundMsg msg
          · rw [runLoop_notfound _ _ _ _ _ _ _ _ _ _ hA hT hp hi hm]
            refine ih _ hmeas ⟨hinv.1, hlogNodup, ?_⟩
            intro v hv
            exact ⟨hlogE0 v hv, by
              rcases List.mem_append.mp hv with h | h
              · exact List.mem_cons_of_mem _ ((hinv.2.2 v h).2)
              · simp at h; subst h; exact List.mem_cons_self _ _⟩
          · by_cases hq : isQuotaMsg msg
            · rw [runLoop_quota _ _ _ _ _ _ _ _ _ _ hA hT hp hi (by simpa using hm) hq]
              exact ⟨hlogNodup, hlogE0⟩
            · rw [runLoop_fatal _ _ _ _ _ _ _ _ _ _ hA hT hp hi (by simpa using hm)
                (by simpa using hq)]
              exact ⟨hlogNodup, hlogE0⟩
    · rw [runLoop_stop _ _ _ _ _ hguard]
      exact ⟨hinv.2.1, fun v hv => (hinv.2.2 v hv).1⟩

/-- The attempt counter of the final state never exceeds the bound. -/
theorem runLoop_attempts_le (qEnv : Nat → String) (cEnv : Nat → List (String × String))
    (detail : String → Option PlatformVideo) (ins : String → ApiResult) :
    ∀ (n : Nat) (st : RunState), MAX_TOTAL_ATTEMPTS - st.attempts ≤ n →
      st.attempts ≤ MAX_TOTAL_ATTEMPTS →
      (runLoop qEnv cEnv detail ins st).state.attempts ≤ MAX_TOTAL_ATTEMPTS := by
  intro n
  induction n with
  | zero =>
    intro st hn hle
    have hstop : ¬(st.added < VIDEOS_PER_RUN ∧ st.attempts < MAX_TOTAL_ATTEMPTS) := by
      intro hc
      simp only [MAX_TOTAL_ATTEMPTS] at hc hn
      omega
    rw [runLoop_stop _ _ _ _ _ hstop]
    exact hle
  | succ n ih =>
    intro st hn hle
    by_cases hguard : st.added < VIDEOS_PER_RUN ∧ st.attempts < MAX_TOTAL_ATTEMPTS
    · obtain ⟨hA, hT⟩ := hguard
      have hmeas : MAX_TOTAL_ATTEMPTS - (st.attempts + 1) ≤ n := by
        simp only [MAX_TOTAL_ATTEMPTS] at hT hn ⊢
        omega
      have hle1 : st.attempts + 1 ≤ MAX_TOTAL_ATTEMPTS := hT
      cases hp : pick_one_new_video st.existing st.picked (cEnv st.attempts) detail
          (qEnv st.attempts) with
      | none =>
        rw [runLoop_pick_none _ _ _ _ _ hA hT hp]
        exact ih _ hmeas hle1
      | some pk =>
        obtain ⟨vid, title, mins, q⟩ := pk
        cases hi : ins vid with
        | success =>
          rw [runLoop_success _ _ _ _ _ _ _ _ _ hA hT hp hi]
          exact ih _ hmeas hle1
        | httpError msg =>
          by_cases hm : isVideoNotFoundMsg msg
          · rw [runLoop_notfound _ _ _ _ _ _ _ _ _ _ hA hT hp hi hm]
            exact ih _ hmeas hle1
          · by_cases hq : isQuotaMsg msg
            · rw [runLoop_quota _ _ _ _ _ _ _ _ _ _ hA hT hp hi (by simpa using hm) hq]
              exact hle1
            · rw [runLoop_fatal _ _ _ _ _ _ _ _ _ _ hA hT hp hi (by simpa using hm)
                (by simpa using hq)]
              exact hle1
    · rw [runLoop_stop _ _ _ _ _ hguard]
      exact hle

/-- With no qualifying candidate anywhere, every attempt falls through,
and the loop runs the attempt counter all the way to the bound. -/
theorem runLoop_exhaust (qEnv : Nat → String) (cEnv : Nat → List (String × String))
    (detail : String → Option PlatformVideo) (ins : String → ApiResult)
    (E0 : List String)
    (hall : ∀ k, pick_one_new_video E0 [] (cEnv k) detail (qEnv k) = none) :
    ∀ (n : Nat) (st : RunState), st.attempts + n = MAX_TOTAL_ATTEMPTS →
      st.existing = E0 → st.picked = [] → st.added = 0 → st.insLog = [] →
      runLoop qEnv cEnv detail ins st =
        RunOutcome.done ⟨E0, [], 0, MAX_TOTAL_ATTEMPTS, []⟩ := by
  intro n
  induction n with
  | zero =>
    intro st hn he hp ha hl
    have ht : st.attempts = MAX_TOTAL_ATTEMPTS := by omega
    have hstop : ¬(st.added < VIDEOS_PER_RUN ∧ st.attempts < MAX_TOTAL_ATTEMPTS) := by
      intro hc
      omega
    rw [runLoop_stop _ _ _ _ _ hstop]
    obtain ⟨e, p, a, t, l⟩ := st
    simp only at he hp ha hl ht
    subst he; subst hp; subst ha; subst hl; subst ht
    rfl
  | succ n ih =>
    intro st hn he hp ha hl
    have hA : st.added < VIDEOS_PER_RUN := by rw [ha]; decide
    have hT : st.attempts < MAX_TOTAL_ATTEMPTS := by omega
    have hpick : pick_one_new_video st.existing st.picked (cEnv st.attempts) detail
        (qEnv st.attempts) = none := by
      rw [he, hp]; exact hall st.attempts
    rw [runLoop_pick_none _ _ _ _ _ hA hT hpick]
    exact ih _ (by simpa using by omega) he hp ha hl



/-! ## Claim theorems -/

/-- C3 (amended): on every encoding of the `PT#H#M#S` grammar the decoder
`iso8601_to_seconds` returns `hours*3600 + minutes*60 + seconds`, and it
returns the sentinel 0 (never raising — it is a total function) on every
string its regex rejects; however, because Python's `$` also matches
before one trailing newline, the strings the regex accepts are exactly
the grammar strings plus those same strings with a single trailing
newline appended. -/
theorem c3_duration_decoder :
    (∀ oh om os, goodComp oh → goodComp om → goodComp os →
      iso8601_to_seconds ⟨grammarString oh om os⟩ =
        compVal oh * 3600 + compVal om * 60 + compVal os) ∧
    (∀ s, pyDollarMatch s = none → iso8601_to_seconds s = 0) ∧
    (∀ s r, pyDollarMatch s = some r →
      matchPTCore s.data = some r ∨
        (s.data.getLast? = some '\n' ∧ matchPTCore s.data.dropLast = some r)) := by
  refine ⟨iso8601_grammar, iso8601_zero_of_nomatch, ?_⟩
  intro s r h
  unfold pyDollarMatch at h
  cases hc : matchPTCore s.data with
  | some r' =>
    rw [hc] at h
    simp at h
    subst h
    exact Or.inl rfl
  | none =>
    rw [hc] at h
    cases hl : s.data.getLast? with
    | none => rw [hl] at h; simp at h
    | some c =>
      rw [hl] at h
      simp only [] at h
      split at h
      · rename_i hnl
        subst hnl
        exact Or.inr ⟨rfl, h⟩
      · exact Option.noConfusion h

/-- C3 counterexample: `"PT5S\n"` is not in the `PT#H#M#S` grammar, yet
the decoder returns 5 for it, not the sentinel 0 — the claim's
"every non-matching string returns the sentinel" fails. -/
theorem c3_counterexample :
    ¬ InGrammar "PT5S\n" ∧ iso8601_to_seconds "PT5S\n" = 5 ∧ (5 : Nat) ≠ 0 := by
  refine ⟨?_, by decide, by decide⟩
  intro h
  obtain ⟨r, hr⟩ := matchPTCore_some_of_inGrammar _ h
  rw [show matchPTCore "PT5S\n".data = none from by decide] at hr
  exact Option.noConfusion hr

/-- C3 witness: the amended theorem evaluated on the encoding `PT24M47S`
(rendered from its grammar components). -/
theorem c3_witness :
    iso8601_to_seconds ⟨grammarString none (some ['2', '4']) (some ['4', '7'])⟩ = 1487 := by
  have h := c3_duration_decoder.1 none (some ['2', '4']) (some ['4', '7'])
    trivial
    (show ['2', '4'] ≠ [] ∧ ∀ c ∈ ['2', '4'], c.isDigit from by decide)
    (show ['4', '7'] ≠ [] ∧ ∀ c ∈ ['4', '7'], c.isDigit from by decide)
  rw [h]
  decide

/-- C4 (amended): in `run_playlist.py` the rejection sentinel of
`video_duration_minutes` is `None`, which can never be produced for a
non-private item with a well-formed duration; but in `add_to_playlist.py`
the decoder `iso8601_to_seconds` returns 0 for every malformed encoding,
which is exactly the value of a genuine zero-second encoding, so there
the "unknown" result is not distinguishable from zero duration. -/
theorem c4_sentinel :
    (∀ s, pyDollarMatch s = none → iso8601_to_seconds s = 0) ∧
    iso8601_to_seconds "PT0S" = 0 ∧
    (∀ v : PlatformVideo, v.privacyStatus ≠ "private" →
      matchPTCore v.duration.data ≠ none → video_duration_minutes (some v) ≠ none) := by
  refine ⟨iso8601_zero_of_nomatch, by decide, ?_⟩
  intro v hpriv hcore
  have e : video_duration_minutes (some v) =
      (if v.privacyStatus = "private" then none
       else match matchPTCore v.duration.data with
         | none => none
         | some (hours, mins, secs) =>
           some (hours * 60 + mins + (if secs ≥ 30 then 1 else 0))) := rfl
  rw [e, if_neg hpriv]
  cases hc : matchPTCore v.duration.data with
  | none => exact absurd hc hcore
  | some r =>
    obtain ⟨h, m, s⟩ := r
    simp

/-- C4 counterexample: the malformed string `"not a duration"` and the
zero-second encoding `"PT0S"` both decode to 0 in `iso8601_to_seconds`,
so the claimed distinguishability fails for that decoder. -/
theorem c4_counterexample :
    pyDollarMatch "not a duration" = none ∧ InGrammar "PT0S" ∧
      iso8601_to_seconds "not a duration" = iso8601_to_seconds "PT0S" := by
  refine ⟨by decide, ?_, by decide⟩
  exact ⟨none, none, some ['0'], trivial, trivial,
    (show ['0'] ≠ [] ∧ ∀ c ∈ ['0'], c.isDigit from by decide), by decide⟩

/-- C4 witness: the amended theorem evaluated on the malformed string
`"xyz"`. -/
theorem c4_witness : iso8601_to_seconds "xyz" = 0 :=
  c4_sentinel.1 "xyz" (by decide)

/-- C8 (amended): for encodings whose seconds field is below 60 (all
canonical clock encodings), `video_duration_minutes` equals the spec's
rounding policy (remainder ≥30 s rounds the minute count up, else
truncates) applied to the decoded total seconds, and in particular
`PT24M47S` decodes to 1487 seconds and converts to 25 minutes; but the
code tests only the seconds *field* against 30, so on grammar encodings
with a seconds field of 60 or more it diverges from the policy. -/
theorem c8_rounding :
    (∀ (v : PlatformVideo) (h m s : Nat),
      matchPTCore v.duration.data = some (h, m, s) → s < 60 →
      v.privacyStatus ≠ "private" →
      video_duration_minutes (some v) =
        some (roundHalfMinutes (iso8601_to_seconds v.duration))) ∧
    iso8601_to_seconds "PT24M47S" = 1487 ∧
    video_duration_minutes (some ⟨"v", "t", "c", "PT24M47S", "public"⟩) = some 25 := by
  refine ⟨?_, by decide, by decide⟩
  intro v h m s hc hs hpriv
  have e : video_duration_minutes (some v) =
      (if v.privacyStatus = "private" then none
       else match matchPTCore v.duration.data with
         | none => none
         | some (hours, mins, secs) =>
           some (hours * 60 + mins + (if secs ≥ 30 then 1 else 0))) := rfl
  rw [e, if_neg hpriv, hc]
  show some (h * 60 + m + (if s ≥ 30 then 1 else 0)) =
    some (roundHalfMinutes (iso8601_to_seconds v.duration))
  rw [iso8601_of_core v.duration h m s hc]
  unfold roundHalfMinutes
  have hdiv : (h * 3600 + m * 60 + s) / 60 = h * 60 + m := by omega
  have hmod : (h * 3600 + m * 60 + s) % 60 = s := by omega
  rw [hdiv, hmod]

/-- C8 counterexample: the grammar encoding `PT90S` decodes to 90
seconds; the claimed rounding policy yields 2 minutes (remainder 30
rounds up), but `video_duration_minutes` yields 1 minute. -/
theorem c8_counterexample :
    video_duration_minutes (some ⟨"v", "t", "c", "PT90S", "public"⟩) = some 1 ∧
    iso8601_to_seconds "PT90S" = 90 ∧ roundHalfMinutes 90 = 2 ∧ (1 : Nat) ≠ 2 := by
  decide

/-- C8 witness: the amended theorem evaluated on `PT24M47S`. -/
theorem c8_witness :
    video_duration_minutes (some ⟨"v", "t", "c", "PT24M47S", "public"⟩) =
      some (roundHalfMinutes (iso8601_to_seconds "PT24M47S")) :=
  c8_rounding.1 ⟨"v", "t", "c", "PT24M47S", "public"⟩ 0 24 47 (by decide) (by decide)
    (by decide)

/-- C10: `video_duration_minutes` returns the `None` sentinel exactly when
the detail lookup is empty, the item is private, or the duration string
fails the full regex match; and the caller's candidate scan skips such a
candidate silently, moving on to the rest. -/
theorem c10_duration_check_none_iff :
    video_duration_minutes none = none ∧
    (∀ v : PlatformVideo, video_duration_minutes (some v) = none ↔
      v.privacyStatus = "private" ∨ matchPTCore v.duration.data = none) ∧
    (∀ (existing picked : List String) (detail : String → Option PlatformVideo)
      (query : String) (checked : Nat) (vid title : String)
      (rest : List (String × String)),
      checked < MAX_CANDIDATES_TO_CHECK_run → ¬(vid ∈ existing ∨ vid ∈ picked) →
      is_bad_title title = false → video_duration_minutes (detail vid) = none →
      pickGo existing picked detail query checked ((vid, title) :: rest) =
        pickGo existing picked detail query (checked + 1) rest) := by
  refine ⟨rfl, ?_, pickGo_skip_duration_none⟩
  intro v
  by_cases hpriv : v.privacyStatus = "private"
  · simp [video_duration_minutes, hpriv]
  · cases hc : matchPTCore v.duration.data with
    | none => simp [video_duration_minutes, hpriv, hc]
    | some r =>
      obtain ⟨h, m, s⟩ := r
      simp [video_duration_minutes, hpriv, hc]

/-- C10 witness: the skipping step evaluated on a candidate whose detail
lookup is empty. -/
theorem c10_witness :
    pickGo [] [] (fun _ => none) "q" 0 [("v", "abc")] =
      pickGo [] [] (fun _ => none) "q" 1 [] :=
  c10_duration_check_none_iff.2.2 [] [] (fun _ => none) "q" 0 "v" "abc" []
    (by decide) (by decide) (by decide) rfl

/-- C5 (amended): in `add_to_playlist.py` every accepted item has decoded
duration of at least 15 minutes (900 seconds); in `run_playlist.py` the
duration is first rounded to whole minutes (a seconds field of ≥30 rounds
up), so the floor actually enforced on accepted items is 870 decoded
seconds, not 900 — items of 870–899 seconds pass. -/
theorem c5_duration_floor :
    (∀ v : PlatformVideo, is_good_video v = true →
      MIN_DURATION_MINUTES * 60 ≤ iso8601_to_seconds v.duration) ∧
    (∀ (existing picked : List String) (cands : List (String × String))
      (detail : String → Option PlatformVideo) (query vid title : String)
      (mins : Nat) (q : String),
      pick_one_new_video existing picked cands detail query =
        some (vid, title, mins, q) →
      ∃ (v : PlatformVideo) (h m s : Nat), detail vid = some v ∧
        matchPTCore v.duration.data = some (h, m, s) ∧
        870 ≤ h * 3600 + m * 60 + s ∧
        iso8601_to_seconds v.duration = h * 3600 + m * 60 + s) := by
  constructor
  · intro v hg
    unfold is_good_video at hg
    split at hg
    · simp at hg
    split at hg
    · simp at hg
    split at hg
    · simp at hg
    split at hg
    · simp at hg
    · rename_i h4
      exact Nat.le_of_not_lt h4
  · intro existing picked cands detail query vid title mins q hp
    obtain ⟨-, -, -, hdm, hmin, -⟩ :=
      pickGo_some_spec existing picked detail query cands 0 vid title mins q hp
    have e : video_duration_minutes (detail vid) =
        (match detail vid with
         | none => none
         | some v =>
           if v.privacyStatus = "private" then none
           else match matchPTCore v.duration.data with
             | none => none
             | some (hours, mins, secs) =>
               some (hours * 60 + mins + (if secs ≥ 30 then 1 else 0))) := rfl
    rw [e] at hdm
    cases hd : detail vid with
    | none => rw [hd] at hdm; simp at hdm
    | some v =>
      rw [hd] at hdm
      simp only [] at hdm
      split at hdm
      · exact Option.noConfusion hdm
      split at hdm
      · exact Option.noConfusion hdm
      · rename_i hpriv h m s hc
        refine ⟨v, h, m, s, rfl, hc, ?_, iso8601_of_core v.duration h m s hc⟩
        have hval : h * 60 + m + (if s ≥ 30 then 1 else 0) = mins :=
          Option.some.inj hdm
        by_cases hs : s ≥ 30
        · rw [if_pos hs] at hval
          simp only [MIN_DURATION_MINUTES] at hmin
          omega
        · rw [if_neg hs] at hval
          simp only [MIN_DURATION_MINUTES] at hmin
          omega

/-- C5 counterexample: a public candidate with duration `PT14M30S` — 870
decoded seconds, fewer than 900 — is accepted by
`run_playlist.pick_one_new_video` (its rounded minute count is 15), so
the claim's "rejected regardless of other attributes" fails for the
`run_playlist` pipeline. -/
theorem c5_counterexample :
    pick_one_new_video [] [] [("v1", "Surah Al-Baqarah Full")]
      (fun v => if v = "v1" then
        some ⟨"v1", "Surah Al-Baqarah Full", "Calm Recitations", "PT14M30S", "public"⟩
        else none) "q"
      = some ("v1", "Surah Al-Baqarah Full", 15, "q") ∧
    iso8601_to_seconds "PT14M30S" = 870 ∧
    870 < MIN_DURATION_MINUTES * 60 := by
  decide

/-- C5 witness: the amended theorem's `add_to_playlist` half evaluated on
an accepted 30-minute video. -/
theorem c5_witness :
    MIN_DURATION_MINUTES * 60 ≤ iso8601_to_seconds
      (PlatformVideo.mk "vX" "Surah Al-Kahf Mishary Rashid Alafasy" "Quran Channel"
        "PT30M" "public").duration :=
  c5_duration_floor.1 _ (by decide)

/-- C6 (amended): in `run_playlist.py` a private item is always rejected
(`video_duration_minutes` returns `None`) and a non-private item is never
rejected on visibility grounds (only a failed duration match rejects it);
but `add_to_playlist.py` fetches no visibility data and `is_good_video`
is entirely independent of the privacy field, so that pipeline rejects no
item for being private. -/
theorem c6_visibility :
    (∀ v : PlatformVideo, v.privacyStatus = "private" →
      video_duration_minutes (some v) = none) ∧
    (∀ (v : PlatformVideo) (h m s : Nat), v.privacyStatus ≠ "private" →
      matchPTCore v.duration.data = some (h, m, s) →
      video_duration_minutes (some v) =
        some (h * 60 + m + (if s ≥ 30 then 1 else 0))) ∧
    (∀ (v : PlatformVideo) (p' : String),
      is_good_video { v with privacyStatus := p' } = is_good_video v) := by
  refine ⟨?_, ?_, ?_⟩
  · intro v hpriv
    have e : video_duration_minutes (some v) =
        (if v.privacyStatus = "private" then none
         else match matchPTCore v.duration.data with
           | none => none
           | some (hours, mins, secs) =>
             some (hours * 60 + mins + (if secs ≥ 30 then 1 else 0))) := rfl
    rw [e, if_pos hpriv]
  · intro v h m s hpriv hc
    have e : video_duration_minutes (some v) =
        (if v.privacyStatus = "private" then none
         else match matchPTCore v.duration.data with
           | none => none
           | some (hours, mins, secs) =>
             some (hours * 60 + mins + (if secs ≥ 30 then 1 else 0))) := rfl
    rw [e, if_neg hpriv, hc]
  · intro v p'
    rfl

/-- C6 counterexample: a private video is nevertheless accepted and
inserted by the `add_to_playlist.py` pipeline, so the claim's "every
private candidate is rejected" fails there. -/
theorem c6_counterexample :
    (PlatformVideo.mk "vP" "Surah Al-Kahf Mishary Rashid Alafasy" "Quran Channel"
      "PT30M" "private").privacyStatus = "private" ∧
    is_good_video (PlatformVideo.mk "vP" "Surah Al-Kahf Mishary Rashid Alafasy"
      "Quran Channel" "PT30M" "private") = true ∧
    addLoop ["old"]
      (fun v => if v = "vP" then
        some (PlatformVideo.mk "vP" "Surah Al-Kahf Mishary Rashid Alafasy"
          "Quran Channel" "PT30M" "private")
        else none)
      (fun _ => ApiResult.success) ["vP"] 0 []
      = (ATOutcome.added "vP", ["old"], ["vP"]) := by
  decide

/-- C6 witness: the amended theorem's run-side half evaluated on a
private video. -/
theorem c6_witness :
    video_duration_minutes
      (some (PlatformVideo.mk "v" "t" "c" "PT20M" "private")) = none :=
  c6_visibility.1 _ rfl

/-- C7 (amended): the randomized picker `pick_one_new_video` filters only
on duplicates, bad titles, and the duration/privacy check — it applies no
creator-match filter at all (creator preference enters only through the
search query), so an accepted item need not match any preferred creator;
the creator-match hard filter exists only in `add_to_playlist.py`'s
`is_good_video`. -/
theorem c7_filters :
    (∀ (existing picked : List String) (cands : List (String × String))
      (detail : String → Option PlatformVideo) (query vid title : String)
      (mins : Nat) (q : String),
      pick_one_new_video existing picked cands detail query =
        some (vid, title, mins, q) →
      vid ∉ existing ∧ vid ∉ picked ∧ is_bad_title title = false ∧
        video_duration_minutes (detail vid) = some mins ∧
        MIN_DURATION_MINUTES ≤ mins) ∧
    (∀ v : PlatformVideo, is_good_video v = true →
      reciter_matches v.title v.channelTitle = true) := by
  constructor
  · intro existing picked cands detail query vid title mins q hp
    obtain ⟨h1, h2, h3, h4, h5, -⟩ :=
      pickGo_some_spec existing picked detail query cands 0 vid title mins q hp
    exact ⟨h1, h2, h3, h4, h5⟩
  · intro v hg
    unfold is_good_video at hg
    split at hg
    · simp at hg
    split at hg
    · simp at hg
    split at hg
    · simp at hg
    · rename_i h3
      simpa using h3

/-- C7 counterexample: `pick_one_new_video` returns a candidate whose
title and channel match no preferred creator, so the claim's "every item
returned by the randomized picker matches a preferred creator" fails. -/
theorem c7_counterexample :
    pick_one_new_video [] [] [("v2", "beautiful quran recitation for relaxation")]
      (fun v => if v = "v2" then
        some ⟨"v2", "beautiful quran recitation for relaxation", "Daily Mix Media",
          "PT20M", "public"⟩
        else none) "q"
      = some ("v2", "beautiful quran recitation for relaxation", 20, "q") ∧
    reciter_matches "beautiful quran recitation for relaxation" "Daily Mix Media"
      = false := by
  decide

/-- C7 witness: the amended theorem's `is_good_video` half evaluated on an
accepted video. -/
theorem c7_witness :
    reciter_matches
      (PlatformVideo.mk "vX" "Surah Al-Kahf Mishary Rashid Alafasy" "Quran Channel"
        "PT30M" "public").title
      (PlatformVideo.mk "vX" "Surah Al-Kahf Mishary Rashid Alafasy" "Quran Channel"
        "PT30M" "public").channelTitle = true :=
  c7_filters.2 _ (by decide)

/-- C2: the selection loop of `run_playlist.main` never drives the attempt
counter past the bound of 40, and with zero qualifying candidates in the
pool it completes normally with nothing added after exactly 40 attempts
(`add_to_playlist.main`'s scan is a structural recursion over the finite
candidate list and terminates by construction). -/
theorem c2_termination :
    (∀ (qEnv : Nat → String) (cEnv : Nat → List (String × String))
      (detail : String → Option PlatformVideo) (ins : String → ApiResult)
      (st : RunState), st.attempts ≤ MAX_TOTAL_ATTEMPTS →
      (runLoop qEnv cEnv detail ins st).state.attempts ≤ MAX_TOTAL_ATTEMPTS) ∧
    (∀ (qEnv : Nat → String) (cEnv : Nat → List (String × String))
      (detail : String → Option PlatformVideo) (ins : String → ApiResult)
      (E0 : List String),
      (∀ k, pick_one_new_video E0 [] (cEnv k) detail (qEnv k) = none) →
      runLoop qEnv cEnv detail ins ⟨E0, [], 0, 0, []⟩ =
        RunOutcome.done ⟨E0, [], 0, MAX_TOTAL_ATTEMPTS, []⟩) := by
  constructor
  · intro qEnv cEnv detail ins st hle
    exact runLoop_attempts_le qEnv cEnv detail ins (MAX_TOTAL_ATTEMPTS - st.attempts)
      st (Nat.le_refl _) hle
  · intro qEnv cEnv detail ins E0 hall
    exact runLoop_exhaust qEnv cEnv detail ins E0 hall MAX_TOTAL_ATTEMPTS
      ⟨E0, [], 0, 0, []⟩ (by simp) rfl rfl rfl rfl

/-- C2 witness: a run over an environment with an empty candidate pool
finishes with zero additions after exactly 40 attempts. -/
theorem c2_witness :
    runLoop (fun _ => "q") (fun _ => []) (fun _ => none)
      (fun _ => ApiResult.success) ⟨["e"], [], 0, 0, []⟩ =
      RunOutcome.done ⟨["e"], [], 0, MAX_TOTAL_ATTEMPTS, []⟩ :=
  c2_termination.2 (fun _ => "q") (fun _ => []) (fun _ => none)
    (fun _ => ApiResult.success) ["e"] (fun _ => rfl)

/-- C1 (amended): in `run_playlist.main` no identifier of the pre-run
membership set is ever passed to the insertion capability, no identifier
is inserted twice within one run, and a successful insertion immediately
adds the identifier to both in-memory sets; `add_to_playlist.main`
likewise never inserts a pre-run member and inserts at most one item per
run, but it never updates its in-memory membership set on acceptance —
its run simply ends at the first insertion. -/
theorem c1_insertion_discipline :
    (∀ (qEnv : Nat → String) (cEnv : Nat → List (String × String))
      (detail : String → Option PlatformVideo) (ins : String → ApiResult)
      (E0 : List String),
      LogOk E0 (runLoop qEnv cEnv detail ins ⟨E0, [], 0, 0, []⟩).state.insLog) ∧
    (∀ (qEnv : Nat → String) (cEnv : Nat → List (String × String))
      (detail : String → Option PlatformVideo) (ins : String → ApiResult)
      (st : RunState) (vid title : String) (mins : Nat) (q : String),
      st.added < VIDEOS_PER_RUN → st.attempts < MAX_TOTAL_ATTEMPTS →
      pick_one_new_video st.existing st.picked (cEnv st.attempts) detail
        (qEnv st.attempts) = some (vid, title, mins, q) →
      ins vid = ApiResult.success →
      runLoop qEnv cEnv detail ins st =
        runLoop qEnv cEnv detail ins
          ⟨vid :: st.existing, vid :: st.picked, st.added + 1, st.attempts + 1,
           st.insLog ++ [vid]⟩) ∧
    (∀ (existing : List String) (lookup : String → Option PlatformVideo)
      (ins : String → ApiResult) (cs : List String) (checked : Nat)
      (log : List String),
      (addLoop existing lookup ins cs checked log).2.1 = existing ∧
      ∃ tail, (addLoop existing lookup ins cs checked log).2.2 = log ++ tail ∧
        tail.length ≤ 1 ∧ ∀ v ∈ tail, v ∉ existing) := by
  refine ⟨?_, runLoop_success, addLoop_spec⟩
  intro qEnv cEnv detail ins E0
  exact runLoop_inv_aux qEnv cEnv detail ins E0 MAX_TOTAL_ATTEMPTS
    ⟨E0, [], 0, 0, []⟩ (by simp)
    ⟨fun v hv => hv, List.nodup_nil, by simp⟩

/-- C1 counterexample: an `add_to_playlist.main` run accepts `"u1"`, yet
its in-memory membership set after the run still does not contain
`"u1"` — the accepted identifier was never added to the membership set,
contradicting the claim's "added immediately upon acceptance". -/
theorem c1_counterexample :
    (addLoop ["old1"]
      (fun v => if v = "u1" then
        some ⟨"u1", "Surah Al-Kahf Mishary Rashid Alafasy", "Quran Channel",
          "PT30M", "public"⟩
        else none)
      (fun _ => ApiResult.success) ["u1"] 0 []).1 = ATOutcome.added "u1" ∧
    "u1" ∉ (addLoop ["old1"]
      (fun v => if v = "u1" then
        some ⟨"u1", "Surah Al-Kahf Mishary Rashid Alafasy", "Quran Channel",
          "PT30M", "public"⟩
        else none)
      (fun _ => ApiResult.success) ["u1"] 0 []).2.1 := by
  decide

/-- C1 witness: the success step of the amended theorem evaluated on a
concrete accepting state. -/
theorem c1_witness :
    runLoop (fun _ => "q") (fun _ => [("v1", "Surah Al-Baqarah Full")])
      (fun v => if v = "v1" then
        some ⟨"v1", "Surah Al-Baqarah Full", "Calm Recitations", "PT20M", "public"⟩
        else none)
      (fun _ => ApiResult.success) ⟨[], [], 0, 0, []⟩ =
    runLoop (fun _ => "q") (fun _ => [("v1", "Surah Al-Baqarah Full")])
      (fun v => if v = "v1" then
        some ⟨"v1", "Surah Al-Baqarah Full", "Calm Recitations", "PT20M", "public"⟩
        else none)
      (fun _ => ApiResult.success) ⟨["v1"], ["v1"], 1, 1, ["v1"]⟩ :=
  c1_insertion_discipline.2.1 (fun _ => "q") (fun _ => [("v1", "Surah Al-Baqarah Full")])
    (fun v => if v = "v1" then
      some ⟨"v1", "Surah Al-Baqarah Full", "Calm Recitations", "PT20M", "public"⟩
      else none)
    (fun _ => ApiResult.success) ⟨[], [], 0, 0, []⟩ "v1" "Surah Al-Baqarah Full" 20 "q"
    (by decide) (by decide) (by decide) rfl

/-- C9 (amended): in `run_playlist.main` an insertion failure whose
message marks "video not found" skips the item and continues, a quota
message halts the remaining loop early with a normal outcome, and any
other failure propagates as fatal; in `add_to_playlist.main`, however,
every insertion failure — including the "not found" and quota kinds —
aborts the run as fatal, since only the `__main__` guard catches
`HttpError` and it re-raises. -/
theorem c9_error_handling :
    (∀ (qEnv : Nat → String) (cEnv : Nat → List (String × String))
      (detail : String → Option PlatformVideo) (ins : String → ApiResult)
      (st : RunState) (vid title : String) (mins : Nat) (q msg : String),
      st.added < VIDEOS_PER_RUN → st.attempts < MAX_TOTAL_ATTEMPTS →
      pick_one_new_video st.existing st.picked (cEnv st.attempts) detail
        (qEnv st.attempts) = some (vid, title, mins, q) →
      ins vid = ApiResult.httpError msg →
      (isVideoNotFoundMsg msg = true →
        runLoop qEnv cEnv detail ins st =
          runLoop qEnv cEnv detail ins
            ⟨st.existing, vid :: st.picked, st.added, st.attempts + 1,
             st.insLog ++ [vid]⟩) ∧
      (isVideoNotFoundMsg msg = false → isQuotaMsg msg = true →
        runLoop qEnv cEnv detail ins st =
          RunOutcome.done
            ⟨st.existing, st.picked, st.added, st.attempts + 1,
             st.insLog ++ [vid]⟩) ∧
      (isVideoNotFoundMsg msg = false → isQuotaMsg msg = false →
        runLoop qEnv cEnv detail ins st =
          RunOutcome.fatal msg
            ⟨st.existing, st.picked, st.added, st.attempts + 1,
             st.insLog ++ [vid]⟩)) ∧
    (∀ (existing : List String) (lookup : String → Option PlatformVideo)
      (ins : String → ApiResult) (vid : String) (rest : List String)
      (checked : Nat) (log : List String) (video : PlatformVideo) (msg : String),
      vid ∉ existing → ¬(checked + 1 > MAX_CANDIDATES_TO_CHECK_add) →
      lookup vid = some video → is_good_video video = true →
      ins vid = ApiResult.httpError msg →
      addLoop existing lookup ins (vid :: rest) checked log =
        (ATOutcome.fatal msg, existing, log ++ [vid])) := by
  refine ⟨?_, addLoop_insert_error⟩
  intro qEnv cEnv detail ins st vid title mins q msg hA hT hp hi
  refine ⟨fun hm => ?_, fun hm hq => ?_, fun hm hq => ?_⟩
  · exact runLoop_notfound qEnv cEnv detail ins st vid title mins q msg hA hT hp hi hm
  · exact runLoop_quota qEnv cEnv detail ins st vid title mins q msg hA hT hp hi hm hq
  · exact runLoop_fatal qEnv cEnv detail ins st vid title mins q msg hA hT hp hi hm hq

/-- C9 counterexample: in `add_to_playlist.main`, a "video not found"
insertion failure on the first qualifying candidate aborts the whole run
as fatal instead of skipping it and adding the second qualifying
candidate, so the claim's skip-and-continue handling fails there. -/
theorem c9_counterexample :
    isVideoNotFoundMsg "HttpError 404 videoNotFound" = true ∧
    (addLoop []
      (fun v => if v = "w1" then
        some ⟨"w1", "Surah Al-Kahf Mishary Rashid Alafasy", "Quran Channel",
          "PT30M", "public"⟩
        else if v = "w2" then
        some ⟨"w2", "Surah Yasin Mishary Rashid Alafasy", "Quran Channel",
          "PT40M", "public"⟩
        else none)
      (fun v => if v = "w1" then ApiResult.httpError "HttpError 404 videoNotFound"
        else ApiResult.success)
      ["w1", "w2"] 0 []).1 = ATOutcome.fatal "HttpError 404 videoNotFound" ∧
    (addLoop []
      (fun v => if v = "w1" then
        some ⟨"w1", "Surah Al-Kahf Mishary Rashid Alafasy", "Quran Channel",
          "PT30M", "public"⟩
        else if v = "w2" then
        some ⟨"w2", "Surah Yasin Mishary Rashid Alafasy", "Quran Channel",
          "PT40M", "public"⟩
        else none)
      (fun v => if v = "w1" then ApiResult.httpError "HttpError 404 videoNotFound"
        else ApiResult.success)
      ["w1", "w2"] 0 []).1 ≠ ATOutcome.added "w2" := by
  decide

/-- C9 witness: the not-found branch of the amended theorem evaluated on a
concrete state. -/
theorem c9_witness :
    runLoop (fun _ => "q") (fun _ => [("v1", "Surah Al-Baqarah Full")])
      (fun v => if v = "v1" then
        some ⟨"v1", "Surah Al-Baqarah Full", "Calm Recitations", "PT20M", "public"⟩
        else none)
      (fun _ => ApiResult.httpError "videoNotFound") ⟨[], [], 0, 0, []⟩ =
    runLoop (fun _ => "q") (fun _ => [("v1", "Surah Al-Baqarah Full")])
      (fun v => if v = "v1" then
        some ⟨"v1", "Surah Al-Baqarah Full", "Calm Recitations", "PT20M", "public"⟩
        else none)
      (fun _ => ApiResult.httpError "videoNotFound") ⟨[], ["v1"], 0, 1, ["v1"]⟩ :=
  (c9_error_handling.1 (fun _ => "q") (fun _ => [("v1", "Surah Al-Baqarah Full")])
    (fun v => if v = "v1" then
      some ⟨"v1", "Surah Al-Baqarah Full", "Calm Recitations", "PT20M", "public"⟩
      else none)
    (fun _ => ApiResult.httpError "videoNotFound") ⟨[], [], 0, 0, []⟩
    "v1" "Surah Al-Baqarah Full" 20 "q" "videoNotFound"
    (by decide) (by decide) (by decide) rfl).1 (by decide)
